import Mathlib

/-!
Verification of the bearer rule-engine configuration code
(package `settings` and package `output` of the repository).

The Go source is shallowly embedded:

* Go structs become Lean structures (field names preserved, capitalised as
  in the source).  `PatternFilter` is recursive through `not`, `either`
  and `filters`, so it is a single-constructor inductive whose flat
  (non-recursive) fields are grouped in the auxiliary structure
  `FilterAttributes`; accessor functions restore the source field names.
* Go YAML deserialization is embedded over an explicit YAML value type
  `Yaml`.  The generic strict decoder supplied by the YAML library
  (the `unmarshal` callback received by the custom `UnmarshalYAML`
  methods) is not part of the given sources; it is modelled from the
  spec (strict field-wise decoding, unknown keys rejected).  The custom
  `UnmarshalYAML` methods themselves are translated from the source.
* Fallible Go functions returning `error` become `Except String`.
* Nil Go slices are distinguished from non-nil slices with `Option`
  where the source distinguishes them (`Rule.Languages`); a Go runtime
  panic (index out of range) is modelled as the result `none`.
-/

/-- A YAML document value: scalar (string, bool, int), sequence or mapping. -/
inductive Yaml where
  | str : String → Yaml
  | bool : Bool → Yaml
  | int : Int → Yaml
  | arr : List Yaml → Yaml
  | map : List (String × Yaml) → Yaml

/-- True on `Except.error`, false on `Except.ok`. -/
def isErr {ε α : Type} (r : Except ε α) : Bool :=
  match r with
  | .error _ => true
  | .ok _ => false

/-- Source: `type RuleReferenceScope string` with constants (part_000 lines 232-242). -/
abbrev RuleReferenceScope := String

def CURSOR_STRICT_SCOPE : RuleReferenceScope := "cursor_strict"

def CURSOR_SCOPE : RuleReferenceScope := "cursor"

def NESTED_SCOPE : RuleReferenceScope := "nested"

def NESTED_STRICT_SCOPE : RuleReferenceScope := "nested_strict"

def RESULT_SCOPE : RuleReferenceScope := "result"

def DefaultScope : RuleReferenceScope := NESTED_SCOPE

/-- Source: `type RuleReferenceImport struct` (part_000 lines 355-358). -/
structure RuleReferenceImport where
  Variable : String := ""
  As : String := ""

/-- The non-recursive fields of the Go struct `PatternFilter`
(part_000 lines 360-379).  `Regexp` values (fields `regex`, `string_regex`,
`filename_regex`) are kept as their YAML source strings. -/
structure FilterAttributes where
  Variable : String := ""
  Detection : String := ""
  Scope : RuleReferenceScope := ""
  Imports : List RuleReferenceImport := []
  Contains : Option Bool := none
  Regex : Option String := none
  Values : List String := []
  LengthLessThan : Option Int := none
  LessThan : Option Int := none
  LessThanOrEqual : Option Int := none
  GreaterThan : Option Int := none
  GreaterThanOrEqual : Option Int := none
  StringRegex : Option String := none
  FilenameRegex : Option String := none

/-- Source: `type PatternFilter struct` (part_000 lines 360-379).
The recursive fields `Not`, `Either`, `Filters` are constructor arguments;
the flat fields sit inside `FilterAttributes`. -/
inductive PatternFilter where
  | mk (attrs : FilterAttributes) (Not : Option PatternFilter)
      (Either : List PatternFilter) (Filters : List PatternFilter)

def PatternFilter.attrs : PatternFilter → FilterAttributes
  | .mk a _ _ _ => a

def PatternFilter.Not : PatternFilter → Option PatternFilter
  | .mk _ n _ _ => n

def PatternFilter.Either : PatternFilter → List PatternFilter
  | .mk _ _ e _ => e

def PatternFilter.Filters : PatternFilter → List PatternFilter
  | .mk _ _ _ f => f

def PatternFilter.withAttrs : PatternFilter → FilterAttributes → PatternFilter
  | .mk _ n e f, a => .mk a n e f

def PatternFilter.withNot : PatternFilter → Option PatternFilter → PatternFilter
  | .mk a _ e f, n => .mk a n e f

def PatternFilter.withEither : PatternFilter → List PatternFilter → PatternFilter
  | .mk a n _ f, e => .mk a n e f

def PatternFilter.withFilters : PatternFilter → List PatternFilter → PatternFilter
  | .mk a n e _, f => .mk a n e f

def PatternFilter.Detection (f : PatternFilter) : String := f.attrs.Detection

def PatternFilter.Scope (f : PatternFilter) : RuleReferenceScope := f.attrs.Scope

def PatternFilter.Contains (f : PatternFilter) : Option Bool := f.attrs.Contains

def PatternFilter.withScope (f : PatternFilter) (s : RuleReferenceScope) : PatternFilter :=
  f.withAttrs { f.attrs with Scope := s }

/-- The zero value of the Go struct `PatternFilter`. -/
def emptyPatternFilter : PatternFilter := .mk {} none [] []

/-- Source: `type RulePattern struct` (part_000 lines 381-385). -/
structure RulePattern where
  Pattern : String := ""
  Focus : String := ""
  Filters : List PatternFilter := []

/-- Tail of `PatternFilter.UnmarshalYAML` (part_000 lines 536-549): after the
wrapped value has been decoded, default the scope and keep backwards
compatibility with the deprecated `contains` flag. -/
def patternFilterDefaults (filter : PatternFilter) : PatternFilter :=
  if filter.Detection ≠ "" then
    let filter1 :=
      match filter.Contains with
      | some c => if c then filter else filter.withScope CURSOR_SCOPE
      | none => filter
    if filter1.Scope = "" then filter1.withScope NESTED_SCOPE else filter1
  else filter

/-- Declared YAML keys of the Go struct `PatternFilter` (its yaml struct tags). -/
def patternFilterKeys : List String :=
  [ "not", "either", "variable", "detection", "scope", "filters", "imports",
    "contains", "regex", "values", "length_less_than", "less_than",
    "less_than_or_equal", "greater_than", "greater_than_or_equal",
    "string_regex", "filename_regex" ]

/-- Declared YAML keys of the Go struct `RulePattern`. -/
def rulePatternKeys : List String := [ "pattern", "focus", "filters" ]

/-- Declared YAML keys of the Go struct `RuleReferenceImport`. -/
def ruleReferenceImportKeys : List String := [ "variable", "as" ]

/-- Modelled from the spec: the strict YAML decoder rejects any mapping key
that is not a declared field of the target struct ("Unknown keys are
rejected"); the decoder configuration is not part of the given sources. -/
def checkKeys (allowed : List String) : List (String × Yaml) → Except String Unit
  | [] => .ok ()
  | (k, _) :: rest =>
    if allowed.contains k then checkKeys allowed rest
    else .error ("field " ++ k ++ " not found in type")

def expectStr : Yaml → Except String String
  | .str s => .ok s
  | _ => .error "expected a string scalar"

def expectBool : Yaml → Except String Bool
  | .bool b => .ok b
  | _ => .error "expected a boolean scalar"

def expectInt : Yaml → Except String Int
  | .int n => .ok n
  | _ => .error "expected an integer scalar"

def expectArr : Yaml → Except String (List Yaml)
  | .arr xs => .ok xs
  | _ => .error "expected a sequence"

def expectStrList (y : Yaml) : Except String (List String) := do
  (← expectArr y).mapM expectStr

def decodeImportField (acc : RuleReferenceImport) :
    String × Yaml → Except String RuleReferenceImport
  | ( "variable", v) => do pure { acc with Variable := (← expectStr v) }
  | ( "as", v) => do pure { acc with As := (← expectStr v) }
  | (k, _) => .error ("field " ++ k ++ " not found in type")

/-- Modelled from the spec: strict field-wise decoding of a
`RuleReferenceImport` mapping. -/
def decodeImport (y : Yaml) : Except String RuleReferenceImport :=
  match y with
  | .map entries => do
    let _ ← checkKeys ruleReferenceImportKeys entries
    entries.foldlM decodeImportField {}
  | _ => .error "expected a mapping for import"

def decodeImportList (y : Yaml) : Except String (List RuleReferenceImport) := do
  (← expectArr y).mapM decodeImport

/-- One field of the strict `PatternFilter` decode; `rec` decodes a nested
filter (running the full custom unmarshaller, as the YAML library does for
nested `PatternFilter` values). -/
def decodeFilterField (rec : Yaml → Except String PatternFilter)
    (acc : PatternFilter) : String × Yaml → Except String PatternFilter
  | ( "not", v) => do pure (acc.withNot (some (← rec v)))
  | ( "either", v) => do pure (acc.withEither (← (← expectArr v).mapM rec))
  | ( "variable", v) => do
    pure (acc.withAttrs { acc.attrs with Variable := (← expectStr v) })
  | ( "detection", v) => do
    pure (acc.withAttrs { acc.attrs with Detection := (← expectStr v) })
  | ( "scope", v) => do
    pure (acc.withAttrs { acc.attrs with Scope := (← expectStr v) })
  | ( "filters", v) => do pure (acc.withFilters (← (← expectArr v).mapM rec))
  | ( "imports", v) => do
    pure (acc.withAttrs { acc.attrs with Imports := (← decodeImportList v) })
  | ( "contains", v) => do
    pure (acc.withAttrs { acc.attrs with Contains := some (← expectBool v) })
  | ( "regex", v) => do
    pure (acc.withAttrs { acc.attrs with Regex := some (← expectStr v) })
  | ( "values", v) => do
    pure (acc.withAttrs { acc.attrs with Values := (← expectStrList v) })
  | ( "length_less_than", v) => do
    pure (acc.withAttrs { acc.attrs with LengthLessThan := some (← expectInt v) })
  | ( "less_than", v) => do
    pure (acc.withAttrs { acc.attrs with LessThan := some (← expectInt v) })
  | ( "less_than_or_equal", v) => do
    pure (acc.withAttrs { acc.attrs with LessThanOrEqual := some (← expectInt v) })
  | ( "greater_than", v) => do
    pure (acc.withAttrs { acc.attrs with GreaterThan := some (← expectInt v) })
  | ( "greater_than_or_equal", v) => do
    pure (acc.withAttrs { acc.attrs with GreaterThanOrEqual := some (← expectInt v) })
  | ( "string_regex", v) => do
    pure (acc.withAttrs { acc.attrs with StringRegex := some (← expectStr v) })
  | ( "filename_regex", v) => do
    pure (acc.withAttrs { acc.attrs with FilenameRegex := some (← expectStr v) })
  | (k, _) => .error ("field " ++ k ++ " not found in type")

/-- Source: `func (filter *PatternFilter) UnmarshalYAML` (part_000 lines
529-552): decode the wrapped raw struct strictly (the `unmarshal` callback,
modelled from the spec), then apply `patternFilterDefaults`.  The `fuel`
argument bounds the YAML nesting depth so the recursion is structural. -/
def patternFilterUnmarshalYAML : Nat → Yaml → Except String PatternFilter
  | 0, _ => .error "filter nesting too deep"
  | fuel + 1, Yaml.map entries => do
    let _ ← checkKeys patternFilterKeys entries
    let raw ← entries.foldlM
      (fun acc kv => decodeFilterField (fun y => patternFilterUnmarshalYAML fuel y) acc kv)
      emptyPatternFilter
    pure (patternFilterDefaults raw)
  | _ + 1, _ => .error "expected a mapping for filter"

def decodeRulePatternField (fuel : Nat) (acc : RulePattern) :
    String × Yaml → Except String RulePattern
  | ( "pattern", v) => do pure { acc with Pattern := (← expectStr v) }
  | ( "focus", v) => do pure { acc with Focus := (← expectStr v) }
  | ( "filters", v) => do
    let ys ← expectArr v
    let fs ← ys.mapM (fun y => patternFilterUnmarshalYAML fuel y)
    pure { acc with Filters := fs }
  | (k, _) => .error ("field " ++ k ++ " not found in type")

/-- The structured branch of `RulePattern.UnmarshalYAML`: decoding into
`rawRulePattern` (the struct without the custom method); nested filters
still run their own custom unmarshaller. -/
def decodeRulePatternRaw (fuel : Nat) : Yaml → Except String RulePattern
  | Yaml.map entries => do
    let _ ← checkKeys rulePatternKeys entries
    entries.foldlM (decodeRulePatternField fuel) {}
  | _ => .error "expected a mapping for pattern"

/-- Source: `func (rulePattern *RulePattern) UnmarshalYAML` (part_000 lines
516-527): first try to decode a bare string, otherwise decode the
structured form. -/
def rulePatternUnmarshalYAML (fuel : Nat) (y : Yaml) : Except String RulePattern :=
  match y with
  | Yaml.str s => .ok { Pattern := s }
  | _ => decodeRulePatternRaw fuel y

/-- Scope of a successfully decoded filter. -/
def scopeOf (r : Except String PatternFilter) : Option RuleReferenceScope :=
  match r with
  | .ok f => some f.Scope
  | .error _ => none

/-- True when some key of the mapping is not among the declared keys. -/
def hasUnknownKey (allowed : List String) (entries : List (String × Yaml)) : Bool :=
  entries.any (fun kv => !(allowed.contains kv.1))

theorem isErr_bind_of_isErr {α β : Type} (x : Except String α)
    (f : α → Except String β) (h : isErr x = true) : isErr (x >>= f) = true := by
  cases x with
  | error e => rfl
  | ok a => simp [isErr] at h

theorem checkKeys_unknown (allowed : List String) (entries : List (String × Yaml))
    (h : hasUnknownKey allowed entries = true) :
    isErr (checkKeys allowed entries) = true := by
  induction entries with
  | nil => simp [hasUnknownKey] at h
  | cons kv rest ih =>
    simp only [hasUnknownKey, List.any_cons] at h
    rw [checkKeys]
    split
    · next hk =>
      rw [hk] at h
      simp only [Bool.not_true, Bool.false_or] at h
      exact ih (by rw [hasUnknownKey]; exact h)
    · next hk => rfl

theorem PatternFilter.Scope_withScope (f : PatternFilter) (s : RuleReferenceScope) :
    (f.withScope s).Scope = s := by
  cases f with
  | mk a n e fs => rfl

theorem PatternFilter.Detection_withScope (f : PatternFilter) (s : RuleReferenceScope) :
    (f.withScope s).Detection = f.Detection := by
  cases f with
  | mk a n e fs => rfl

theorem patternFilterDefaults_eq (raw : PatternFilter) :
    patternFilterDefaults raw =
      if raw.Detection = "" then raw
      else if raw.Contains = some false then raw.withScope CURSOR_SCOPE
      else if raw.Scope = "" then raw.withScope NESTED_SCOPE
      else raw := by
  have hcur : (CURSOR_SCOPE : String) ≠ "" := by decide
  by_cases hd : raw.Detection = ""
  · simp [patternFilterDefaults, hd]
  · cases hc : raw.Contains with
    | none =>
      by_cases hs : raw.Scope = ""
      · simp [patternFilterDefaults, hd, hc, hs]
      · simp [patternFilterDefaults, hd, hc, hs]
    | some c =>
      cases c with
      | false =>
        simp [patternFilterDefaults, hd, hc, PatternFilter.Scope_withScope, hcur]
      | true =>
        by_cases hs : raw.Scope = ""
        · simp [patternFilterDefaults, hd, hc, hs]
        · simp [patternFilterDefaults, hd, hc, hs]

theorem patternFilterDefaults_scope (raw : PatternFilter) :
    ((raw.Detection ≠ "" → raw.Contains = some false →
      (patternFilterDefaults raw).Scope = CURSOR_SCOPE)
  ∧ (raw.Detection ≠ "" → raw.Contains ≠ some false → raw.Scope = "" →
      (patternFilterDefaults raw).Scope = NESTED_SCOPE)
  ∧ (raw.Detection ≠ "" → raw.Contains ≠ some false → raw.Scope ≠ "" →
      (patternFilterDefaults raw).Scope = raw.Scope)
  ∧ (raw.Detection = "" → patternFilterDefaults raw = raw)) := by
  refine ⟨?_, ?_, ?_, ?_⟩
  · intro hd hc
    rw [patternFilterDefaults_eq]
    simp [hd, hc, PatternFilter.Scope_withScope]
  · intro hd hc hs
    rw [patternFilterDefaults_eq]
    simp [hd, hc, hs, PatternFilter.Scope_withScope]
  · intro hd hc hs
    rw [patternFilterDefaults_eq]
    simp [hd, hc, hs]
  · intro hd
    rw [patternFilterDefaults_eq]
    simp [hd]

/-- C1 counterexample: a filter with `contains: false` but no `detection`
keeps the empty scope (not `cursor`), and a filter with `detection` and an
explicit `scope: result` (with `contains` absent) keeps scope `result`
(not `nested`).  Both parses succeed. -/
theorem c1_contains_compat_cex :
    scopeOf (patternFilterUnmarshalYAML 2
      (Yaml.map [ ( "contains", Yaml.bool false) ])) ≠ none
  ∧ scopeOf (patternFilterUnmarshalYAML 2
      (Yaml.map [ ( "contains", Yaml.bool false) ])) ≠ some CURSOR_SCOPE
  ∧ scopeOf (patternFilterUnmarshalYAML 2
      (Yaml.map [ ( "detection", Yaml.str "x"), ( "scope", Yaml.str "result") ]))
      ≠ none
  ∧ scopeOf (patternFilterUnmarshalYAML 2
      (Yaml.map [ ( "detection", Yaml.str "x"), ( "scope", Yaml.str "result") ]))
      ≠ some NESTED_SCOPE := by
  decide

/-- C1 (amended): for a filter whose `detection` is non-empty, `contains:
false` forces scope `cursor`; when `contains` is true or absent the scope
defaults to `nested` only if no scope was specified, and an explicitly
specified scope is kept.  When `detection` is empty the `contains` flag has
no effect and the scope is left as deserialized. -/
theorem c1_contains_compat (raw : PatternFilter) :
    ((raw.Detection ≠ "" → raw.Contains = some false →
      (patternFilterDefaults raw).Scope = CURSOR_SCOPE)
  ∧ (raw.Detection ≠ "" → raw.Contains ≠ some false → raw.Scope = "" →
      (patternFilterDefaults raw).Scope = NESTED_SCOPE)
  ∧ (raw.Detection ≠ "" → raw.Contains ≠ some false → raw.Scope ≠ "" →
      (patternFilterDefaults raw).Scope = raw.Scope)
  ∧ (raw.Detection = "" → (patternFilterDefaults raw).Scope = raw.Scope)) := by
  obtain ⟨h1, h2, h3, h4⟩ := patternFilterDefaults_scope raw
  exact ⟨h1, h2, h3, fun hd => by rw [h4 hd]⟩

theorem c1_contains_compat_witness :
    (patternFilterDefaults
      (PatternFilter.mk { Detection := "x", Contains := some false } none [] [])).Scope
      = CURSOR_SCOPE :=
  (c1_contains_compat _).1 (by decide) rfl

/-- C2: a bare string deserializes to a `RulePattern` holding exactly that
pattern with empty focus and no filters; a mapping deserializes through the
strict field-wise struct decoder, illustrated on a two-field mapping. -/
theorem c2_rule_pattern_shapes :
    ((∀ fuel : Nat, ∀ s : String, rulePatternUnmarshalYAML fuel (Yaml.str s)
        = .ok { Pattern := s, Focus := "", Filters := [] })
  ∧ (∀ fuel : Nat, ∀ entries : List (String × Yaml),
      rulePatternUnmarshalYAML fuel (Yaml.map entries)
        = decodeRulePatternRaw fuel (Yaml.map entries))
  ∧ (∀ fuel : Nat, ∀ p f : String, rulePatternUnmarshalYAML fuel
        (Yaml.map [ ( "pattern", Yaml.str p), ( "focus", Yaml.str f) ])
        = .ok { Pattern := p, Focus := f, Filters := [] })) :=
  ⟨fun _ _ => rfl, fun _ _ => rfl, fun _ _ _ => rfl⟩

/-- C3: a filter with a non-empty `detection`, no scope and no `contains`
flag gets the default scope `nested`. -/
theorem c3_reference_default_scope (raw : PatternFilter)
    (hd : raw.Detection ≠ "") (hs : raw.Scope = "") (hc : raw.Contains = none) :
    (patternFilterDefaults raw).Scope = NESTED_SCOPE :=
  (patternFilterDefaults_scope raw).2.1 hd (by rw [hc]; simp) hs

theorem c3_reference_default_scope_witness :
    (patternFilterDefaults
      (PatternFilter.mk { Detection := "x" } none [] [])).Scope = NESTED_SCOPE :=
  c3_reference_default_scope _ (by decide) rfl rfl

/-- C4: deserializing a `PatternFilter` or a `RulePattern` from a mapping
that contains a key that is not a declared field of the target type fails
with an error. -/
theorem c4_unknown_keys_rejected (fuel : Nat)
    (entries1 entries2 : List (String × Yaml))
    (h1 : hasUnknownKey patternFilterKeys entries1 = true)
    (h2 : hasUnknownKey rulePatternKeys entries2 = true) :
    isErr (patternFilterUnmarshalYAML fuel (Yaml.map entries1)) = true
  ∧ isErr (rulePatternUnmarshalYAML fuel (Yaml.map entries2)) = true := by
  constructor
  · cases fuel with
    | zero => rfl
    | succ n => exact isErr_bind_of_isErr _ _ (checkKeys_unknown _ _ h1)
  · exact isErr_bind_of_isErr _ _ (checkKeys_unknown _ _ h2)

theorem c4_unknown_keys_rejected_witness :
    isErr (patternFilterUnmarshalYAML 1
      (Yaml.map [ ( "detectionz", Yaml.str "x") ])) = true
  ∧ isErr (rulePatternUnmarshalYAML 1
      (Yaml.map [ ( "patternz", Yaml.str "x") ])) = true :=
  c4_unknown_keys_rejected 1 _ _ (by decide) (by decide)

/-- Source: `type MatchOn string` with constants (part_000 lines 224-230). -/
abbrev MatchOn := String

def PRESENCE : MatchOn := "presence"

def ABSENCE : MatchOn := "absence"

def STORED_DATA_TYPES : MatchOn := "stored_data_types"

/-- Source: `type RuleTrigger struct` (part_000 lines 251-255). -/
structure RuleTrigger where
  MatchOn : MatchOn := ""
  DataTypesRequired : Bool := false
  RequiredDetection : Option String := none

/-- Source: `type Rule struct` (part_000 lines 323-353).  `Languages` is a Go
slice whose nil-ness is observed by `Rule.Language`, so it is `Option (List
String)` with `none` for the nil slice.  Fields of the Go struct not read by
any operation verified here (`Detectors`, `Processors`, the auto-encrypt
prefix, the legacy SQL metavar fields, and similar plumbing) are omitted. -/
structure Rule where
  Id : String := ""
  AssociatedRecipe : String := ""
  «Type» : String := ""
  Trigger : RuleTrigger := {}
  IsLocal : Bool := false
  Stored : Bool := false
  HasDetailedContext : Bool := false
  SkipDataTypes : List String := []
  OnlyDataTypes : List String := []
  Severity : String := ""
  Description : String := ""
  RemediationMessage : String := ""
  CWEIDs : List String := []
  Languages : Option (List String) := none
  Patterns : List RulePattern := []
  SanitizerRuleID : String := ""
  DocumentationUrl : String := ""
  IsAuxilary : Bool := false

/-- Modelled from the spec: the severity level constants of the package
`internal/types` (severity is one of critical, high, medium, low, warning,
with default low); that package is not part of the given sources. -/
def LevelCritical : String := "critical"

def LevelHigh : String := "high"

def LevelMedium : String := "medium"

def LevelLow : String := "low"

def LevelWarning : String := "warning"

/-- Source: `func (rule *Rule) PolicyType` (part_000 lines 410-412). -/
def Rule.PolicyType (rule : Rule) : Bool := rule.«Type» == "risk"

/-- Source: `func (rule *Rule) GetSeverity` (part_000 lines 414-420). -/
def Rule.GetSeverity (rule : Rule) : String :=
  if rule.Severity = "" then LevelLow else rule.Severity

/-- The language display names of the switch inside `Rule.Language`
(part_000 lines 427-438), extracted as a function.  The Go switch is an
if-else chain on the first language tag. -/
def languageDisplayName (l : String) : String :=
  if l = "java" then "Java"
  else if l = "javascript" then "JavaScript"
  else if l = "ruby" then "Ruby"
  else if l = "sql" then "SQL"
  else l

/-- Source: `func (rule *Rule) Language` (part_000 lines 422-439).  The Go
code returns "secret" only when the slice is nil; otherwise it indexes
`rule.Languages[0]` unguarded, which panics (index out of range) on a
non-nil empty slice.  The panic is modelled as the result `none`. -/
def Rule.Language (rule : Rule) : Option String :=
  match rule.Languages with
  | none => some "secret"
  | some [] => none
  | some (l :: _) => some (languageDisplayName l)

/-- C7: an empty severity field defaults to low, a non-empty one is
returned unchanged. -/
theorem c7_get_severity_default (rule : Rule) :
    (rule.Severity = "" → Rule.GetSeverity rule = "low")
  ∧ (rule.Severity ≠ "" → Rule.GetSeverity rule = rule.Severity) := by
  constructor
  · intro h
    rw [Rule.GetSeverity]
    simp [h, LevelLow]
  · intro h
    rw [Rule.GetSeverity]
    simp [h]

theorem c7_get_severity_default_witness :
    Rule.GetSeverity {} = "low"
  ∧ Rule.GetSeverity { Severity := "high" } = "high" :=
  ⟨(c7_get_severity_default {}).1 rfl,
   (c7_get_severity_default { Severity := "high" }).2 (by decide)⟩

/-- C8 counterexample: a `Rule` whose languages list is empty but non-nil
does not yield "secret"; `Rule.Language` indexes the first element of the
empty slice and has no result (a runtime panic in the Go code). -/
theorem c8_language_cex :
    Rule.Language { Languages := some [] } ≠ some "secret" := by
  decide

/-- C8 (amended): a `Rule` whose languages field is the nil slice (absent)
applies to secrets/text and `Language` returns "secret"; a non-nil empty
list has no defined result; with at least one tag, `Language` returns the
display name of the first tag: Java, JavaScript, Ruby, SQL for the known
tags and the tag itself otherwise. -/
theorem c8_language (rule : Rule) :
    ((rule.Languages = none → Rule.Language rule = some "secret")
  ∧ (∀ l ls, rule.Languages = some (l :: ls) →
      Rule.Language rule = some (languageDisplayName l))
  ∧ (languageDisplayName "java" = "Java" ∧ languageDisplayName "javascript" = "JavaScript"
      ∧ languageDisplayName "ruby" = "Ruby" ∧ languageDisplayName "sql" = "SQL")
  ∧ (∀ l, l ≠ "java" → l ≠ "javascript" → l ≠ "ruby" → l ≠ "sql" →
      languageDisplayName l = l)) := by
  refine ⟨?_, ?_, by decide, ?_⟩
  · intro h
    rw [Rule.Language, h]
  · intro l ls h
    rw [Rule.Language, h]
  · intro l h1 h2 h3 h4
    rw [languageDisplayName]
    simp [h1, h2, h3, h4]

theorem c8_language_witness :
    Rule.Language { Languages := none } = some "secret"
  ∧ Rule.Language { Languages := some [ "ruby" ] } = some "Ruby"
  ∧ Rule.Language { Languages := some [ "php" ] } = some "php" :=
  ⟨(c8_language { Languages := none }).1 rfl,
   (c8_language { Languages := some [ "ruby" ] }).2.1 "ruby" [] rfl,
   by
    have h := (c8_language { Languages := some [ "php" ] }).2.1 "php" [] rfl
    rw [h]
    rw [(c8_language { Languages := some [ "php" ] }).2.2.2 "php"
      (by decide) (by decide) (by decide) (by decide)]⟩

/-- C9: `Rule.Language` distinguishes the nil languages slice (result
"secret") from a non-nil empty one, on which the unguarded index of the
first element has no defined result; with at least one tag the result is
defined. -/
theorem c9_language_partiality (rule : Rule) :
    ((rule.Languages = none → Rule.Language rule = some "secret")
  ∧ (rule.Languages = some [] → Rule.Language rule = none)
  ∧ (∀ l ls, rule.Languages = some (l :: ls) →
      (Rule.Language rule).isSome = true)) := by
  refine ⟨?_, ?_, ?_⟩
  · intro h
    rw [Rule.Language, h]
  · intro h
    rw [Rule.Language, h]
  · intro l ls h
    rw [Rule.Language, h]
    rfl

theorem c9_language_partiality_witness :
    Rule.Language { Languages := none } = some "secret"
  ∧ Rule.Language { Languages := some [] } = none
  ∧ (Rule.Language { Languages := some [ "sql" ] }).isSome = true :=
  ⟨(c9_language_partiality { Languages := none }).1 rfl,
   (c9_language_partiality { Languages := some [] }).2.1 rfl,
   (c9_language_partiality { Languages := some [ "sql" ] }).2.2 "sql" [] rfl⟩

/-- Source: `type PolicyModule struct` (part_000 lines 218-222). -/
structure PolicyModule where
  Path : String := ""
  Name : String := ""
  Content : String := ""

/-- Source: `type Policy struct` (part_000 lines 212-216); `Modules` is
`type Modules []*PolicyModule` (line 210). -/
structure Policy where
  «Type» : String := ""
  Query : String := ""
  Modules : List PolicyModule := []

/-- One nanosecond-count per Go `time.Second`. -/
def timeSecond : Nat := 1000000000

def timeMinute : Nat := 60 * timeSecond

/-- Source: package-level defaults (part_000 lines 163-177), restricted to
the ones read by `defaultWorkerOptions`; durations are nanosecond counts. -/
def Timeout : Nat := 10 * timeMinute

def TimeoutFileMinimum : Nat := 5 * timeSecond

def TimeoutFileMaximum : Nat := 30 * timeSecond

def TimeoutFileBytesPerSecond : Int := 1 * 1000

def TimeoutWorkerOnline : Nat := 60 * timeSecond

def FileSizeMaximum : Int := 2 * 1000 * 1000

def ExistingWorker : String := ""

/-- Source: `type WorkerOptions struct` (part_000 lines 179-187). -/
structure WorkerOptions where
  Timeout : Nat := 0
  TimeoutFileMinimum : Nat := 0
  TimeoutFileMaximum : Nat := 0
  TimeoutFileBytesPerSecond : Int := 0
  TimeoutWorkerOnline : Nat := 0
  FileSizeMaximum : Int := 0
  ExistingWorker : String := ""

/-- Source: `func defaultWorkerOptions` (part_000 lines 441-451). -/
def defaultWorkerOptions : WorkerOptions :=
  { Timeout := Timeout
    TimeoutFileMinimum := TimeoutFileMinimum
    TimeoutFileMaximum := TimeoutFileMaximum
    TimeoutFileBytesPerSecond := TimeoutFileBytesPerSecond
    TimeoutWorkerOnline := TimeoutWorkerOnline
    FileSizeMaximum := FileSizeMaximum
    ExistingWorker := ExistingWorker }

/-- Modelled from the spec: the api client `api.API` (package `api`, not in
the given sources); only its presence (nil or not) and its `Error` field are
observed here. -/
structure API where
  Error : Option String := none

/-- Modelled from the spec: `ignoretypes.IgnoredFingerprint` (package
`internal/util/ignore/types`, not in the given sources), kept opaque. -/
structure IgnoredFingerprint where
  Comment : Option String := none

/-- Source: `type LoadRulesResult struct` (part_000 lines 244-249); the Go
maps keyed by rule id are association lists here. -/
structure LoadRulesResult where
  BuiltInRules : List (String × Rule) := []
  Rules : List (String × Rule) := []
  CacheUsed : Bool := false
  BearerRulesVersion : String := ""

/-- Modelled from the spec: `flag.ReportSecurity`, the report-type tag of
the security report (package `internal/flag`, not in the given sources). -/
def ReportSecurity : String := "security"

/-- Modelled from the spec: `flag.ScanOptions` (package `internal/flag`,
not in the given sources), restricted to the fields `FromOptions` reads. -/
structure ScanOptions where
  Target : String := ""
  Force : Bool := false
  Quiet : Bool := false
  DiffBaseBranch : String := ""

/-- Modelled from the spec: `flag.ReportOptions`, restricted to the fields
`FromOptions` reads. -/
structure ReportOptions where
  Report : String := ""
  Format : String := ""
  Output : String := ""

/-- Modelled from the spec: `flag.GeneralOptions`, restricted to the fields
`FromOptions` reads. -/
structure GeneralOptions where
  IgnoreFile : String := ""
  NoColor : Bool := false
  Debug : Bool := false
  DebugProfile : Bool := false
  LogLevel : String := ""

/-- Modelled from the spec: `flag.Options` as consumed by `FromOptions`. -/
structure Options where
  Client : Option API := none
  ScanOpts : ScanOptions := {}
  ReportOpts : ReportOptions := {}
  GeneralOpts : GeneralOptions := {}
  ExternalRuleDir : String := ""

/-- Source: `type Config struct` (part_000 lines 189-208); Go maps are
association lists here. -/
structure Config where
  Client : Option API := none
  Worker : WorkerOptions := {}
  Scan : ScanOptions := {}
  Report : ReportOptions := {}
  IgnoredFingerprints : List (String × IgnoredFingerprint) := []
  StaleIgnoredFingerprintIds : List String := []
  CloudIgnoresUsed : Bool := false
  Policies : List (String × Policy) := []
  Target : String := ""
  IgnoreFile : String := ""
  Rules : List (String × Rule) := []
  BuiltInRules : List (String × Rule) := []
  CacheUsed : Bool := false
  BearerRulesVersion : String := ""
  NoColor : Bool := false
  Debug : Bool := false
  LogLevel : String := ""
  DebugProfile : Bool := false

/-- The inner loop of `FromOptions` over one policy module list (part_000
lines 469-477): a module with a non-empty path has the embedded file read
into its content; a missing file aborts with the read error. -/
def expandPolicyModules (read : String → Option String) :
    List PolicyModule → Except String (List PolicyModule)
  | [] => .ok []
  | m :: rest =>
    if m.Path ≠ "" then
      match read m.Path with
      | none => .error ("open " ++ m.Path ++ ": file does not exist")
      | some content => do
        let rest2 ← expandPolicyModules read rest
        pure ({ m with Content := content } :: rest2)
    else do
      let rest2 ← expandPolicyModules read rest
      pure (m :: rest2)

/-- The outer loop of `FromOptions` over the policies map (part_000 lines
466-478); the Go map is iterated as an association list (the claims proved
below do not depend on the iteration order). -/
def expandPolicies (read : String → Option String) :
    List (String × Policy) → Except String (List (String × Policy))
  | [] => .ok []
  | (k, p) :: rest => do
    let ms ← expandPolicyModules read p.Modules
    let rest2 ← expandPolicies read rest
    pure ((k, { p with Modules := ms }) :: rest2)

/-- Source: `func FromOptions` (part_000 lines 453-514).  External
collaborators are parameters: `loadRulesFn` stands for `loadRules` (with
`opts.RuleOptions` and the version metadata absorbed, since only
`opts.ExternalRuleDir` and `opts.ScanOptions.Force` come from `opts`);
`getIgnoredFingerprints` stands for `ignore.GetIgnoredFingerprints` (its
two discarded results dropped); `read` stands for `policiesFs.ReadFile`;
`defaultPols` stands for the result of `DefaultPolicies()`, which parses
the embedded `policies.yml`. -/
def FromOptions (loadRulesFn : String → Bool → Except String LoadRulesResult)
    (getIgnoredFingerprints : String → String →
      Except String (List (String × IgnoredFingerprint)))
    (read : String → Option String)
    (defaultPols : List (String × Policy))
    (opts : Options) : Except String Config := do
  let policies := defaultPols
  let workerOptions := defaultWorkerOptions
  let result ← loadRulesFn opts.ExternalRuleDir opts.ScanOpts.Force
  let policies ← expandPolicies read policies
  let ignoredFingerprints ←
    getIgnoredFingerprints opts.GeneralOpts.IgnoreFile opts.ScanOpts.Target
  let config : Config :=
    { Client := opts.Client
      Worker := workerOptions
      Scan := opts.ScanOpts
      Report := opts.ReportOpts
      IgnoredFingerprints := ignoredFingerprints
      NoColor := opts.GeneralOpts.NoColor || opts.ReportOpts.Output != ""
      DebugProfile := opts.GeneralOpts.DebugProfile
      Debug := opts.GeneralOpts.Debug
      LogLevel := opts.GeneralOpts.LogLevel
      IgnoreFile := opts.GeneralOpts.IgnoreFile
      Policies := policies
      Rules := result.Rules
      BuiltInRules := result.BuiltInRules
      CacheUsed := result.CacheUsed
      BearerRulesVersion := result.BearerRulesVersion }
  if config.Scan.DiffBaseBranch ≠ "" then
    if config.Report.Report ≠ ReportSecurity then
      throw "diff base branch is only supported for the security report"
    else if config.Client.isSome then
      throw "diff base branch is not supported when using an api key"
    else pure config
  else pure config

theorem bindE_ok {ε α β : Type} (a : α) (f : α → Except ε β) :
    (Except.ok a >>= f) = f a := rfl

theorem pureE {ε α : Type} (a : α) : (pure a : Except ε α) = Except.ok a := rfl

theorem bindE_error {ε α β : Type} (e : ε) (f : α → Except ε β) :
    ((Except.error e : Except ε α) >>= f) = Except.error e := rfl

theorem expandPolicyModules_err (read : String → Option String)
    (ms : List PolicyModule)
    (h : ∃ m ∈ ms, m.Path ≠ "" ∧ read m.Path = none) :
    isErr (expandPolicyModules read ms) = true := by
  induction ms with
  | nil =>
    rcases h with ⟨m, hm, _⟩
    cases hm
  | cons m rest ih =>
    rcases h with ⟨m0, hm0, hp0, hr0⟩
    rcases List.mem_cons.mp hm0 with heq | hmem
    · subst heq
      simp [expandPolicyModules, hp0, hr0, isErr]
    · by_cases hp : m.Path ≠ ""
      · cases hr : read m.Path with
        | none => simp [expandPolicyModules, hp, hr, isErr]
        | some c =>
          simp only [expandPolicyModules, if_pos hp, hr]
          exact isErr_bind_of_isErr _ _ (ih ⟨m0, hmem, hp0, hr0⟩)
      · simp only [expandPolicyModules, if_neg hp]
        exact isErr_bind_of_isErr _ _ (ih ⟨m0, hmem, hp0, hr0⟩)

theorem expandPolicies_err (read : String → Option String)
    (ps : List (String × Policy))
    (h : ∃ kp ∈ ps, ∃ m ∈ kp.2.Modules, m.Path ≠ "" ∧ read m.Path = none) :
    isErr (expandPolicies read ps) = true := by
  induction ps with
  | nil =>
    rcases h with ⟨kp, hkp, _⟩
    cases hkp
  | cons kp1 rest ih =>
    obtain ⟨k, p⟩ := kp1
    rcases h with ⟨kp0, hkp0, m0, hm0, hp0, hr0⟩
    rcases List.mem_cons.mp hkp0 with heq | hmem
    · subst heq
      simp only [expandPolicies]
      exact isErr_bind_of_isErr _ _
        (expandPolicyModules_err read p.Modules ⟨m0, hm0, hp0, hr0⟩)
    · simp only [expandPolicies]
      cases hms : expandPolicyModules read p.Modules with
      | error e => simp [bindE_error, isErr]
      | ok ms =>
        rw [bindE_ok]
        exact isErr_bind_of_isErr _ _ (ih ⟨kp0, hmem, m0, hm0, hp0, hr0⟩)

theorem expandPolicyModules_ok (read : String → Option String)
    (ms ms2 : List PolicyModule)
    (h : expandPolicyModules read ms = .ok ms2) :
    ∀ m2 ∈ ms2, m2.Path ≠ "" → read m2.Path = some m2.Content := by
  induction ms generalizing ms2 with
  | nil =>
    simp only [expandPolicyModules] at h
    have h2 := Except.ok.inj h
    subst h2
    intro m2 hm2
    cases hm2
  | cons m rest ih =>
    simp only [expandPolicyModules] at h
    by_cases hp : m.Path ≠ ""
    · rw [if_pos hp] at h
      split at h
      · exact Except.noConfusion h
      · next c hr =>
        cases hrec : expandPolicyModules read rest with
        | error e =>
          rw [hrec, bindE_error] at h
          exact Except.noConfusion h
        | ok rest2 =>
          rw [hrec, bindE_ok] at h
          have h2 := Except.ok.inj h
          subst h2
          intro m2 hm2 hp2
          rcases List.mem_cons.mp hm2 with heq | hmem
          · subst heq
            exact hr
          · exact ih rest2 hrec m2 hmem hp2
    · rw [if_neg hp] at h
      cases hrec : expandPolicyModules read rest with
      | error e =>
        rw [hrec, bindE_error] at h
        exact Except.noConfusion h
      | ok rest2 =>
        rw [hrec, bindE_ok] at h
        have h2 := Except.ok.inj h
        subst h2
        intro m2 hm2 hp2
        rcases List.mem_cons.mp hm2 with heq | hmem
        · subst heq
          exact absurd (not_not.mp hp) hp2
        · exact ih rest2 hrec m2 hmem hp2

theorem expandPolicies_ok (read : String → Option String)
    (ps ps2 : List (String × Policy))
    (h : expandPolicies read ps = .ok ps2) :
    ∀ kp ∈ ps2, ∀ m ∈ kp.2.Modules, m.Path ≠ "" →
      read m.Path = some m.Content := by
  induction ps generalizing ps2 with
  | nil =>
    simp only [expandPolicies] at h
    have h2 := Except.ok.inj h
    subst h2
    intro kp hkp
    cases hkp
  | cons kp1 rest ih =>
    obtain ⟨k, p⟩ := kp1
    simp only [expandPolicies] at h
    cases hms : expandPolicyModules read p.Modules with
    | error e =>
      rw [hms, bindE_error] at h
      exact Except.noConfusion h
    | ok ms =>
      rw [hms, bindE_ok] at h
      cases hrec : expandPolicies read rest with
      | error e =>
        rw [hrec, bindE_error] at h
        exact Except.noConfusion h
      | ok rest2 =>
        rw [hrec, bindE_ok] at h
        have h2 := Except.ok.inj h
        subst h2
        intro kp hkp m hm hp
        rcases List.mem_cons.mp hkp with heq | hmem
        · subst heq
          exact expandPolicyModules_ok read p.Modules ms hms m hm hp
        · exact ih rest2 hrec kp hmem m hm hp

/-- C6: assuming rule loading succeeds, a policy module with a non-empty
path whose embedded file is missing makes `FromOptions` fail with an error
(no configuration is returned), and whenever `FromOptions` succeeds, every
policy module with a non-empty path carries the text of its embedded file
in its content field. -/
theorem c6_policy_module_expansion
    (loadRulesFn : String → Bool → Except String LoadRulesResult)
    (getIg : String → String → Except String (List (String × IgnoredFingerprint)))
    (read : String → Option String)
    (pols : List (String × Policy)) (opts : Options) (r : LoadRulesResult)
    (hload : loadRulesFn opts.ExternalRuleDir opts.ScanOpts.Force = .ok r) :
    ((∃ kp ∈ pols, ∃ m ∈ kp.2.Modules, m.Path ≠ "" ∧ read m.Path = none) →
      isErr (FromOptions loadRulesFn getIg read pols opts) = true)
  ∧ (∀ config, FromOptions loadRulesFn getIg read pols opts = .ok config →
      ∀ kp ∈ config.Policies, ∀ m ∈ kp.2.Modules, m.Path ≠ "" →
        read m.Path = some m.Content) := by
  constructor
  · intro hex
    simp only [FromOptions, hload, bindE_ok]
    exact isErr_bind_of_isErr _ _ (expandPolicies_err read pols hex)
  · intro config hok kp hkp m hm hp
    cases hpol : expandPolicies read pols with
    | error e =>
      simp only [FromOptions, hload, hpol, bindE_ok, bindE_error] at hok
      exact Except.noConfusion hok
    | ok ps2 =>
      cases hig : getIg opts.GeneralOpts.IgnoreFile opts.ScanOpts.Target with
      | error e =>
        simp only [FromOptions, hload, hpol, hig, bindE_ok, bindE_error] at hok
        exact Except.noConfusion hok
      | ok ig =>
        simp only [FromOptions, hload, hpol, hig, bindE_ok] at hok
        have hpols : config.Policies = ps2 := by
          split at hok
          · split at hok
            · exact Except.noConfusion hok
            · split at hok
              · exact Except.noConfusion hok
              · rw [← Except.ok.inj hok]
          · rw [← Except.ok.inj hok]
        exact expandPolicies_ok read pols ps2 hpol kp
          (by rw [hpols] at hkp; exact hkp) m hm hp

/-- A concrete policy module used in the closed instances below. -/
def riskModule : PolicyModule := { Path := "policies/risk.rego", Name := "r" }

/-- A concrete policy used in the closed instances below. -/
def riskPolicy : Policy := { «Type» := "risk", Modules := [ riskModule ] }

theorem c6_policy_module_expansion_witness :
    isErr (FromOptions (fun _ _ => .ok {}) (fun _ _ => .ok []) (fun _ => none)
      [ ( "risk", riskPolicy) ] {}) = true :=
  (c6_policy_module_expansion _ _ _ _ _ {} rfl).1
    ⟨( "risk", riskPolicy), List.mem_cons_self _ _,
     riskModule, List.mem_cons_self _ _, by decide, rfl⟩

/-- C10: whenever the scan option `DiffBaseBranch` is non-empty and the
report type is not the security report or an api client is configured,
`FromOptions` fails with an error and no configuration is returned. -/
theorem c10_diff_base_branch
    (loadRulesFn : String → Bool → Except String LoadRulesResult)
    (getIg : String → String → Except String (List (String × IgnoredFingerprint)))
    (read : String → Option String)
    (pols : List (String × Policy)) (opts : Options)
    (hdiff : opts.ScanOpts.DiffBaseBranch ≠ "")
    (hbad : opts.ReportOpts.Report ≠ ReportSecurity ∨ opts.Client.isSome = true) :
    isErr (FromOptions loadRulesFn getIg read pols opts) = true := by
  cases hl : loadRulesFn opts.ExternalRuleDir opts.ScanOpts.Force with
  | error e => simp [FromOptions, hl, bindE_error, isErr]
  | ok r =>
    cases hpol : expandPolicies read pols with
    | error e => simp [FromOptions, hl, hpol, bindE_ok, bindE_error, isErr]
    | ok ps2 =>
      cases hig : getIg opts.GeneralOpts.IgnoreFile opts.ScanOpts.Target with
      | error e =>
        simp [FromOptions, hl, hpol, hig, bindE_ok, bindE_error, isErr]
      | ok ig =>
        simp only [FromOptions, hl, hpol, hig, bindE_ok]
        rw [if_pos hdiff]
        rcases hbad with hb | hb
        · rw [if_pos hb]
          rfl
        · by_cases hr : opts.ReportOpts.Report ≠ ReportSecurity
          · rw [if_pos hr]
            rfl
          · rw [if_neg hr, if_pos hb]
            rfl

theorem c10_diff_base_branch_witness :
    isErr (FromOptions (fun _ _ => .ok {}) (fun _ _ => .ok [])
      (fun _ => none) []
      { ScanOpts := { DiffBaseBranch := "main" },
        ReportOpts := { Report := "privacy" } }) = true :=
  c10_diff_base_branch _ _ _ _ _ (by decide) (Or.inl (by decide))

/-- Detector entries are `map[string]interface{}` values in the Go report
data; they are modelled as association lists over strings, which covers
everything the verified code reads or writes. -/
abbrev DetectorEntry := List (String × String)

/-- Go map assignment `detection["id"] = v`: replace any existing binding
of the key. -/
def mapSet (entry : DetectorEntry) (k v : String) : DetectorEntry :=
  (entry.filter (fun kv => kv.1 != k)) ++ [ (k, v) ]

/-- Source: the loop of `GetDataflow` (part_000 lines 82-84): the i-th
detector entry gets `uuidAt i` under the key "id".  `uuidAt` models the
successive results of `uuid.NewString()`, which are random v4 uuids in the
source (package github.com/google/uuid), so they are an input of the model
but not an input of the Go function. -/
def assignIds (uuidAt : Nat → String) : Nat → List DetectorEntry → List DetectorEntry
  | _, [] => []
  | i, d :: rest => mapSet d "id" (uuidAt i) :: assignIds uuidAt (i + 1) rest

/-- Modelled from the spec: the fields of `types.ReportData` (package
`internal/report/output/types`, not in the given sources) that `GetDataflow`
touches; `Dataflow` abstracts the payload the external
`dataflow.AddReportData` computes. -/
structure ReportData where
  Detectors : Option (List DetectorEntry) := none
  Dataflow : Option String := none
  SendToCloud : Bool := false
deriving DecidableEq

/-- Source: `func GetDataflow` (part_000 lines 76-86).  External
collaborators are parameters: `addDetectors` stands for
`detectors.AddReportData` and `addDataflow` for `dataflow.AddReportData`.
A nil detector list stays nil (ranging over a nil slice does nothing). -/
def GetDataflow (addDetectors : ReportData → Except String ReportData)
    (addDataflow : ReportData → Bool → Except String ReportData)
    (uuidAt : Nat → String)
    (reportData : ReportData) (isInternal : Bool) : Except String ReportData := do
  let reportData ←
    if reportData.Detectors.isNone then addDetectors reportData
    else pure reportData
  let newDetectors :=
    match reportData.Detectors with
    | none => none
    | some ds => some (assignIds uuidAt 0 ds)
  let reportData := { reportData with Detectors := newDetectors }
  addDataflow reportData isInternal

/-- Drop the "id" binding of a detector entry. -/
def eraseId (entry : DetectorEntry) : DetectorEntry :=
  entry.filter (fun kv => kv.1 != "id")

/-- Drop every detector "id" binding of a report. -/
def eraseReportIds (rd : ReportData) : ReportData :=
  { rd with Detectors := rd.Detectors.map (fun ds => ds.map eraseId) }

theorem filter_id_idem (l : DetectorEntry) :
    (l.filter (fun kv => kv.1 != "id")).filter (fun kv => kv.1 != "id")
      = l.filter (fun kv => kv.1 != "id") := by
  induction l with
  | nil => rfl
  | cons kv rest ih =>
    rw [List.filter_cons]
    by_cases h : (kv.1 != "id") = true
    · rw [if_pos h, List.filter_cons, if_pos h, ih]
    · rw [if_neg h, ih]

theorem eraseId_mapSet (entry : DetectorEntry) (v : String) :
    eraseId (mapSet entry "id" v) = eraseId entry := by
  rw [eraseId, mapSet, List.filter_append, eraseId, filter_id_idem]
  have h2 : ([ ( "id", v) ] : DetectorEntry).filter (fun kv => kv.1 != "id") = [] := rfl
  rw [h2, List.append_nil]

theorem assignIds_eraseIds (u : Nat → String) (i : Nat) (ds : List DetectorEntry) :
    (assignIds u i ds).map eraseId = ds.map eraseId := by
  induction ds generalizing i with
  | nil => rfl
  | cons d rest ih =>
    simp only [assignIds, List.map_cons]
    rw [eraseId_mapSet, ih]

/-- C5 counterexample: two runs of `GetDataflow` on identical inputs (same
detector data, same collaborators) but distinct uuid draws produce
different output data: the detector "id" fields carry the fresh random
uuids. -/
theorem c5_report_determinism_cex :
    GetDataflow (fun r => .ok r) (fun r _ => .ok r) (fun _ => "id-a")
      { Detectors := some [ [ ( "type", "ruby") ] ] } false
  ≠ GetDataflow (fun r => .ok r) (fun r _ => .ok r) (fun _ => "id-b")
      { Detectors := some [ [ ( "type", "ruby") ] ] } false := by
  intro h
  exact absurd (congrArg Except.toOption h) (by decide)

/-- C5 (amended): the output is deterministic and reproducible except for
the detector "id" fields, which are freshly generated uuids on every run;
with the external dataflow step held fixed, two runs on identical inputs
agree after erasing the "id" keys, for every pair of uuid streams. -/
theorem c5_report_determinism (addDet : ReportData → Except String ReportData)
    (u1 u2 : Nat → String) (rd : ReportData) (isInternal : Bool) :
    (GetDataflow addDet (fun r _ => .ok r) u1 rd isInternal).map eraseReportIds
  = (GetDataflow addDet (fun r _ => .ok r) u2 rd isInternal).map eraseReportIds := by
  simp only [GetDataflow]
  by_cases h0 : rd.Detectors.isNone
  · simp only [if_pos h0]
    cases ha : addDet rd with
    | error e => rw [bindE_error, bindE_error]
    | ok rd1 =>
      rw [bindE_ok, bindE_ok]
      cases hds : rd1.Detectors with
      | none => rfl
      | some ds =>
        simp only [hds, Except.map, eraseReportIds, Option.map]
        rw [assignIds_eraseIds, assignIds_eraseIds]
  · simp only [if_neg h0, pureE, bindE_ok]
    cases hds : rd.Detectors with
    | none =>
      simp only [hds]
    | some ds =>
      simp only [hds, Except.map, eraseReportIds, Option.map]
      rw [assignIds_eraseIds, assignIds_eraseIds]
